import Mathlib

/-!
Verification of the ABP adaptive anti-bot server.

The main server (`src/5.js`, the "Nexus" engine) is embedded below in the
`ABP` namespace: trust memory with time decay, the risk engine, the
`/challenge`, `/verify` and `/protected` request handlers, and HMAC token
issuance.  The `ABP.Enterprise` namespace embeds the Redis-backed variant
(`src/unnamed/part_002`), which is the variant that stores challenges keyed
by nonce and binds them to the issuing IP.

Conventions of the embedding:
* timestamps (`Date.now()`) are natural numbers of milliseconds;
* JavaScript floating-point scores are modelled as rationals;
* the `Map` objects (`usedNonces`, `trustMemory`) are association lists
  with `Map.set` replacing any previous binding of the key;
* `crypto.createHash("sha256")` and `crypto.createHmac("sha256", secret)`
  are opaque parameters `sha : String → String` and
  `hmac : String → String → String` of the handlers;
* `crypto.timingSafeEqual` throws on buffers of unequal length, which the
  embedding models with `Except Unit`;
* a handler mutating a trust-state object obtained from the map is
  modelled by writing the updated record back into the map at the same key.
-/

namespace ABP

/-- Bool test that `pat` occurs as a contiguous sublist of `l`. -/
def isInfixList (pat : List Char) : List Char → Bool
  | [] => pat.isEmpty
  | c :: rest => pat.isPrefixOf (c :: rest) || isInfixList pat rest

/-- Case-insensitive containment of the literal (lowercase) pattern `pat`
in `s`; models the JS regex test `/pat/i.test(s)` for a literal pattern. -/
def containsCI (pat s : String) : Bool :=
  isInfixList pat.data (s.data.map Char.toLower)

/-- `/curl|wget|python|axios/i.test(ua)` from `computeRisk` in src/5.js. -/
def uaToolPattern (ua : String) : Bool :=
  containsCI "curl" ua || containsCI "wget" ua ||
    containsCI "python" ua || containsCI "axios" ua

/-- `const TOKEN_TTL = 60 * 1000` (src/5.js line 25). -/
def TOKEN_TTL : ℕ := 60 * 1000

/-- `const NONCE_TTL = 2 * 60 * 1000` (src/5.js line 26). -/
def NONCE_TTL : ℕ := 2 * 60 * 1000

/-- `const BASE_DIFFICULTY = 3` (src/5.js line 27). -/
def BASE_DIFFICULTY : ℤ := 3

/-- Per-fingerprint trust state (src/5.js `getTrustState` initialiser):
`{ score: 0, lastSeen: Date.now(), requestTimes: [] }`. -/
structure TrustState where
  score : ℚ
  lastSeen : ℕ
  requestTimes : List ℕ
deriving Repr, DecidableEq

/-- The `trustMemory` map: fingerprint → trust state. -/
abbrev TrustMem := List (String × TrustState)

/-- The `usedNonces` map: nonce → insertion time. -/
abbrev NonceMap := List (String × ℕ)

/-- The process-wide mutable maps of src/5.js. -/
structure ServerState where
  usedNonces : NonceMap
  trustMemory : TrustMem
deriving Repr, DecidableEq

/-- `Map.set`: bind `k` to `v`, dropping any previous binding of `k`. -/
def mapSet {α : Type} (k : String) (v : α) (m : List (String × α)) :
    List (String × α) :=
  (k, v) :: m.filter (fun p => p.1 != k)

/-- `cleanNonces` (src/5.js lines 70-77): delete every nonce whose
insertion time is more than `NONCE_TTL` in the past. -/
def cleanNonces (now : ℕ) (m : NonceMap) : NonceMap :=
  m.filter (fun p => decide (now - p.2 ≤ NONCE_TTL))

/-- `getTrustState` (src/5.js lines 79-88): lazy creation of the trust
state, returning the state found or created, together with the updated
`trustMemory`. -/
def getTrustState (fp : String) (now : ℕ) (mem : TrustMem) :
    TrustState × TrustMem :=
  match List.lookup fp mem with
  | some s => (s, mem)
  | none => (⟨0, now, []⟩, mapSet fp ⟨0, now, []⟩ mem)

/-- `decayTrust` (src/5.js lines 90-95):
`state.score *= Math.max(0.5, 1 - delta / 600000)` with
`delta = now - state.lastSeen`, then `state.lastSeen = now`. -/
def decayTrust (now : ℕ) (s : TrustState) : TrustState :=
  { s with
    score := s.score * max (0.5 : ℚ) (1 - ((now : ℚ) - (s.lastSeen : ℚ)) / 600000),
    lastSeen := now }

/-- Iterated decay, for reasoning about sequences of `decayTrust` calls. -/
def decaySeq (ts : List ℕ) (s : TrustState) : TrustState :=
  ts.foldl (fun a t => decayTrust t a) s

/-- `computeRisk` (src/5.js lines 99-121): decays the trust state, adds
the user-agent penalties and the sliding-window burst penalty into the
cumulative score, records the request time, and returns the updated score
together with the updated `trustMemory`. -/
def computeRisk (ua fp : String) (now : ℕ) (mem : TrustMem) :
    ℚ × TrustMem :=
  let gs := getTrustState fp now mem
  let state := decayTrust now gs.1
  let uaScore : ℚ :=
    (if containsCI "headless" ua then 0.6 else 0) +
      (if uaToolPattern ua then 0.6 else 0)
  let requestTimes :=
    (state.requestTimes ++ [now]).filter (fun t => decide (now - t < 10000))
  let burstScore : ℚ := if requestTimes.length > 30 then 0.5 else 0
  let state' : TrustState :=
    { state with
      score := state.score + (uaScore + burstScore),
      requestTimes := requestTimes }
  (state'.score, mapSet fp state' gs.2)

/-- `BASE_DIFFICULTY + Math.min(3, Math.floor(state.score))`, the
difficulty expression of src/5.js lines 136-137 and 175-176. -/
def difficultyFor (score : ℚ) : ℤ :=
  BASE_DIFFICULTY + min 3 ⌊score⌋

/-- `hash.startsWith("0".repeat(d))`. -/
def startsWithZeros (hash : String) (d : ℤ) : Bool :=
  (List.replicate d.toNat '0').isPrefixOf hash.data

/-- The token payload of src/5.js lines 195-200:
`{ fingerprintHash, ip, exp: Date.now() + TOKEN_TTL, v: SECRET_VERSION }`. -/
structure Payload where
  fingerprintHash : String
  ip : String
  exp : ℕ
  v : ℕ
deriving Repr, DecidableEq

/-- `JSON.stringify` of the fixed-shape token payload. -/
def serializePayload (p : Payload) : String :=
  "\x7b\"fingerprintHash\":\"" ++ p.fingerprintHash ++ "\",\"ip\":\"" ++
    p.ip ++ "\",\"exp\":" ++ toString p.exp ++ ",\"v\":" ++ toString p.v ++ "\x7d"

/-- `sign` (src/5.js lines 55-60): HMAC-SHA256 of the serialized payload
under the current secret; the digest function is the parameter `hmac`. -/
def signPayload (hmac : String → String → String) (secret : String)
    (p : Payload) : String :=
  hmac secret (serializePayload p)

/-- `crypto.timingSafeEqual` on the two digest strings: throws when the
lengths differ, otherwise constant-time equality. -/
def timingSafeEqual (a b : String) : Except Unit Bool :=
  if a.length = b.length then Except.ok (a == b) else Except.error ()

/-- `verifySignature` (src/5.js lines 62-68). -/
def verifySignature (hmac : String → String → String) (secret : String)
    (p : Payload) (signature : String) : Except Unit Bool :=
  timingSafeEqual signature (signPayload hmac secret p)

/-- Token issuance, src/5.js lines 195-202. -/
def issueToken (hmac : String → String → String) (secret fp ip : String)
    (now v : ℕ) : Payload × String :=
  (⟨fp, ip, now + TOKEN_TTL, v⟩, signPayload hmac secret ⟨fp, ip, now + TOKEN_TTL, v⟩)

/-- Outcome of the `/verify` handler. -/
inductive VerifyResult where
  | malformed
  | replay
  | invalidPow
  | difficultyFail
  | shadowThrottled
  | highRisk
  | token (payload : Payload) (signature : String)
deriving Repr, DecidableEq

/-- HTTP status code attached to each `/verify` outcome in src/5.js. -/
def verifyStatus : VerifyResult → ℕ
  | .malformed => 400
  | .replay => 403
  | .invalidPow => 403
  | .difficultyFail => 403
  | .shadowThrottled => 200
  | .highRisk => 403
  | .token _ _ => 200

/-- Body and headers of a `/verify` request. -/
structure VerifyReq where
  fingerprintHash : String
  nonce : String
  counter : Option String
  hash : String
  ua : String
  ip : String
deriving Repr, DecidableEq

/-- The `/verify` handler (src/5.js lines 150-210).  `sha` models
`sha256`, `hmac`/`secret`/`version` model the process globals. -/
def verifyHandler (sha : String → String) (hmac : String → String → String)
    (secret : String) (version : ℕ) (req : VerifyReq) (now : ℕ)
    (st : ServerState) : VerifyResult × ServerState :=
  let nonces := cleanNonces now st.usedNonces
  if req.fingerprintHash = "" ∨ req.nonce = "" ∨ req.counter = none ∨ req.hash = "" then
    (.malformed, ⟨nonces, st.trustMemory⟩)
  else if (List.lookup req.nonce nonces).isSome then
    (.replay, ⟨nonces, st.trustMemory⟩)
  else if sha (req.fingerprintHash ++ req.nonce ++ req.counter.getD "") ≠ req.hash then
    (.invalidPow, ⟨nonces, st.trustMemory⟩)
  else
    let gs := getTrustState req.fingerprintHash now st.trustMemory
    let dynamicDifficulty := difficultyFor gs.1.score
    if startsWithZeros req.hash dynamicDifficulty = false then
      (.difficultyFail, ⟨nonces, gs.2⟩)
    else
      let rm := computeRisk req.ua req.fingerprintHash now gs.2
      let nonces' := mapSet req.nonce now nonces
      if rm.1 > 3 then
        (.shadowThrottled, ⟨nonces', rm.2⟩)
      else if rm.1 > 5 then
        (.highRisk, ⟨nonces', rm.2⟩)
      else
        let tok := issueToken hmac secret req.fingerprintHash req.ip now version
        let mem :=
          match List.lookup req.fingerprintHash rm.2 with
          | some s => mapSet req.fingerprintHash { s with score := s.score * 0.5 } rm.2
          | none => rm.2
        (.token tok.1 tok.2, ⟨nonces', mem⟩)

/-- Outcome of the `/challenge` handler. -/
inductive ChallengeResult where
  | missingFingerprint
  | challenge (nonce : String) (difficulty : ℤ) (version : ℕ)
deriving Repr, DecidableEq

/-- The `/challenge` handler (src/5.js lines 125-146); `nonceGen` models
the value drawn from `crypto.randomBytes(16)`. -/
def challengeHandler (nonceGen : String) (version : ℕ)
    (fingerprintHash : String) (now : ℕ) (st : ServerState) :
    ChallengeResult × ServerState :=
  let nonces := cleanNonces now st.usedNonces
  if fingerprintHash = "" then
    (.missingFingerprint, ⟨nonces, st.trustMemory⟩)
  else
    let gs := getTrustState fingerprintHash now st.trustMemory
    let state := decayTrust now gs.1
    (.challenge nonceGen (difficultyFor state.score) version,
      ⟨nonces, mapSet fingerprintHash state gs.2⟩)

/-- Outcome of the `/protected` handler. -/
inductive ProtectedResult where
  | missingToken
  | invalidSignature
  | expired
  | ipMismatch
  | success
deriving Repr, DecidableEq

/-- Body of a `/protected` request plus the requester IP. -/
structure ProtectedReq where
  payload : Option Payload
  signature : String
  ip : String

/-- The `/protected` handler (src/5.js lines 214-231).  An
`Except.error` value is the uncaught `crypto.timingSafeEqual` exception. -/
def protectedHandler (hmac : String → String → String) (secret : String)
    (req : ProtectedReq) (now : ℕ) : Except Unit ProtectedResult :=
  match req.payload with
  | none => Except.ok .missingToken
  | some p =>
    if req.signature = "" then Except.ok .missingToken
    else
      match verifySignature hmac secret p req.signature with
      | Except.error e => Except.error e
      | Except.ok ok =>
        if ok = false then Except.ok .invalidSignature
        else if now > p.exp then Except.ok .expired
        else if p.ip ≠ req.ip then Except.ok .ipMismatch
        else Except.ok .success

namespace Enterprise

/-- `const CHALLENGE_TTL = 60` seconds (src/unnamed/part_002 line 15). -/
def CHALLENGE_TTL : ℕ := 60

/-- `const BASE_DIFFICULTY = 4` (src/unnamed/part_002 line 17). -/
def BASE_DIFFICULTY : ℕ := 4

/-- `const MAX_DIFFICULTY = 7` (src/unnamed/part_002 line 18). -/
def MAX_DIFFICULTY : ℕ := 7

/-- The telemetry `signals` object; `cpu`/`memory` record whether the
optional fields were present (truthy). -/
structure Signals where
  ua : String
  cpu : Bool
  memory : Bool
deriving Repr, DecidableEq

/-- Body of a `/verify` request for the Redis variant. -/
structure Req where
  challenge : String
  nonce : String
  hash : String
  ip : String
  signals : Signals
deriving Repr, DecidableEq

/-- The Redis keyspace of src/unnamed/part_002: `challenge:*` keys map a
nonce to the issuing IP, `nonce:*` keys mark used nonces, `rate:*` keys
count recent requests per IP. -/
structure St where
  challenges : List (String × String)
  nonces : List String
  rate : List (String × ℕ)
deriving Repr, DecidableEq

/-- `computeRisk` (src/unnamed/part_002 lines 142-153). -/
def computeRisk (s : Signals) : ℚ :=
  (if ABP.containsCI "headless" s.ua || ABP.containsCI "phantom" s.ua then 0.5 else 0) +
    (if ABP.containsCI "curl" s.ua || ABP.containsCI "wget" s.ua ||
        ABP.containsCI "python" s.ua then 0.5 else 0) +
    (if s.cpu then 0 else 0.2) +
    (if s.memory then 0 else 0.2)

/-- `dynamicDifficulty` (src/unnamed/part_002 lines 55-59). -/
def dynamicDifficulty (rate : List (String × ℕ)) (ip : String) : ℕ :=
  min MAX_DIFFICULTY (BASE_DIFFICULTY + ((List.lookup ip rate).getD 0) / 50)

/-- Outcome of the Redis-variant `/verify` handler. -/
inductive Result where
  | invalidChallenge
  | invalidPow
  | replay
  | highRisk
  | token (ip : String) (issued : ℕ) (signature : String)
deriving Repr, DecidableEq

/-- `JSON.stringify` of the token payload `{ ip, issued }`. -/
def serializeToken (ip : String) (issued : ℕ) : String :=
  "\x7b\"ip\":\"" ++ ip ++ "\",\"issued\":" ++ toString issued ++ "\x7d"

/-- The `/verify` handler of src/unnamed/part_002 (lines 82-120): looks
up the stored challenge binding, rejects when it is absent or bound to a
different IP, then checks PoW, replay, risk, and issues a token. -/
def verify (sha : String → String) (hmac : String → String → String)
    (secret : String) (req : Req) (now : ℕ) (st : St) : Result × St :=
  match List.lookup req.challenge st.challenges with
  | none => (.invalidChallenge, st)
  | some storedIp =>
    if storedIp = "" ∨ storedIp ≠ req.ip then
      (.invalidChallenge, st)
    else
      let difficulty := dynamicDifficulty st.rate req.ip
      if sha (req.challenge ++ req.nonce) ≠ req.hash ∨
          (List.replicate difficulty '0').isPrefixOf req.hash.data = false then
        (.invalidPow, st)
      else if req.nonce ∈ st.nonces then
        (.replay, st)
      else
        let st1 : St :=
          ⟨st.challenges.filter (fun p => p.1 != req.challenge),
            req.nonce :: st.nonces, st.rate⟩
        if computeRisk req.signals > 0.7 then
          (.highRisk, st1)
        else
          let st2 : St :=
            ⟨st1.challenges, st1.nonces,
              ABP.mapSet req.ip (((List.lookup req.ip st1.rate).getD 0) + 1) st1.rate⟩
          (.token req.ip now (hmac secret (serializeToken req.ip now)), st2)

end Enterprise

end ABP

namespace ABP

/-! ### Helper lemmas -/

/-- One decay step keeps the score non-negative: the multiplier is at
least `0.5`. -/
lemma decay_score_nonneg {s : TrustState} {now : ℕ} (h : 0 ≤ s.score) :
    0 ≤ (decayTrust now s).score :=
  mul_nonneg h (le_trans (by norm_num) (le_max_left _ _))

/-- Any sequence of decay steps keeps the score non-negative. -/
lemma decaySeq_score_nonneg (ts : List ℕ) (s : TrustState)
    (h : 0 ≤ s.score) : 0 ≤ (decaySeq ts s).score := by
  induction ts generalizing s with
  | nil => exact h
  | cons t ts ih => exact ih _ (decay_score_nonneg h)

/-- A string with the same length as a nonempty string is nonempty. -/
lemma ne_empty_of_length_eq {a b : String} (h : a.length = b.length)
    (hb : b ≠ "") : a ≠ "" := by
  intro ha
  apply hb
  subst ha
  cases b with
  | mk data =>
    cases data with
    | nil => rfl
    | cons c cs => simp [String.length] at h

/-- A nonce found in the map and still within `NONCE_TTL` survives
`cleanNonces`. -/
lemma lookup_cleanNonces {k : String} {t now : ℕ} {m : NonceMap}
    (hl : List.lookup k m = some t) (h : now - t ≤ NONCE_TTL) :
    List.lookup k (cleanNonces now m) = some t := by
  induction m with
  | nil => simp [List.lookup] at hl
  | cons p rest ih =>
    rcases p with ⟨k', v⟩
    by_cases hk : (k == k') = true
    · have hv : v = t := by simpa [List.lookup, hk] using hl
      subst hv
      unfold cleanNonces
      rw [List.filter_cons, if_pos (by simp [h])]
      simp [List.lookup, hk]
    · have hl' : List.lookup k rest = some t := by
        simpa [List.lookup, hk] using hl
      have hrest := ih hl'
      unfold cleanNonces at hrest ⊢
      rw [List.filter_cons]
      by_cases hp : now - v ≤ NONCE_TTL
      · rw [if_pos (by simp [hp])]
        simpa [List.lookup, hk] using hrest
      · rw [if_neg (by simp [hp])]
        exact hrest

/-! ### Claims -/

/-- C5: for every trust state and time `now` with `now ≥ lastSeen`, one
decay step sets the score to `score * max(0.5, 1 − (now − lastSeen)/600000)`
and sets `lastSeen` to `now`; consequently the score after the step is
non-negative and not larger than before, and any sequence of decay calls
keeps the score non-negative. -/
theorem decayTrust_step_spec (s : TrustState) (now : ℕ)
    (hscore : 0 ≤ s.score) (htime : s.lastSeen ≤ now) :
    (decayTrust now s).score
        = s.score * max (0.5 : ℚ) (1 - ((now : ℚ) - (s.lastSeen : ℚ)) / 600000) ∧
    (decayTrust now s).lastSeen = now ∧
    0 ≤ (decayTrust now s).score ∧
    (decayTrust now s).score ≤ s.score ∧
    ∀ ts : List ℕ, 0 ≤ (decaySeq ts s).score := by
  refine ⟨rfl, rfl, decay_score_nonneg hscore, ?_, fun ts => decaySeq_score_nonneg ts s hscore⟩
  apply mul_le_of_le_one_right hscore
  apply max_le (by norm_num)
  have hcast : ((s.lastSeen : ℚ)) ≤ ((now : ℚ)) := by exact_mod_cast htime
  have hdiv : (0 : ℚ) ≤ ((now : ℚ) - (s.lastSeen : ℚ)) / 600000 := by
    apply div_nonneg (by linarith) (by norm_num)
  linarith

/-- Witness for C5 at the concrete state `score = 1`, `lastSeen = 0`,
decayed at `now = 300000`. -/
theorem decayTrust_step_spec_witness :
    (decayTrust 300000 ⟨1, 0, []⟩).score ≤ 1 ∧
    0 ≤ (decayTrust 300000 ⟨1, 0, []⟩).score ∧
    (decayTrust 300000 ⟨1, 0, []⟩).lastSeen = 300000 := by
  have h := decayTrust_step_spec ⟨1, 0, []⟩ 300000 zero_le_one (Nat.zero_le _)
  exact ⟨h.2.2.2.1, h.2.2.1, h.2.1⟩

/-- C6: the difficulty expression of the challenge issuer is non-decreasing
in the trust score and clamped to `[3, 6]` (`BASE_DIFFICULTY = 3`, cap 3),
and the `/challenge` handler returns exactly this expression applied to the
decayed score of the requester's trust state. -/
theorem challenge_difficulty_monotone_clamped (s1 s2 : ℚ)
    (h0 : 0 ≤ s1) (h12 : s1 ≤ s2) :
    (difficultyFor s1 ≤ difficultyFor s2 ∧
      (3 : ℤ) ≤ difficultyFor s1 ∧ difficultyFor s1 ≤ 6) ∧
    ∀ (nonceGen fp : String) (version now : ℕ) (st : ServerState),
      fp ≠ "" →
      (challengeHandler nonceGen version fp now st).1 =
        ChallengeResult.challenge nonceGen
          (difficultyFor (decayTrust now (getTrustState fp now st.trustMemory).1).score)
          version := by
  constructor
  · have hf : ⌊s1⌋ ≤ ⌊s2⌋ := Int.floor_mono h12
    have h0f : (0 : ℤ) ≤ ⌊s1⌋ := Int.floor_nonneg.mpr h0
    unfold difficultyFor BASE_DIFFICULTY
    omega
  · intro nonceGen fp version now st hfp
    simp [challengeHandler, hfp]

/-- Witness for C6 at scores `0 ≤ 1` and a concrete `/challenge` call. -/
theorem challenge_difficulty_monotone_clamped_witness :
    (difficultyFor 0 ≤ difficultyFor 1 ∧
      (3 : ℤ) ≤ difficultyFor 0 ∧ difficultyFor 0 ≤ 6) ∧
    (challengeHandler "n" 1 "a" 5 ⟨[], []⟩).1 =
      ChallengeResult.challenge "n"
        (difficultyFor (decayTrust 5 (getTrustState "a" 5 ([] : TrustMem)).1).score)
        1 := by
  have h := challenge_difficulty_monotone_clamped 0 1 le_rfl zero_le_one
  exact ⟨h.1, h.2 "n" "a" 1 5 ⟨[], []⟩ (by decide)⟩

end ABP

namespace ABP

/-- Evaluation of the `/protected` handler on a well-shaped request whose
signature has the length of the expected digest: the outcome is decided
by digest equality, then expiry, then IP binding. -/
lemma protectedHandler_eval (hmac : String → String → String)
    (secret : String) (p : Payload) (sig ip' : String) (now : ℕ)
    (hne : sig ≠ "")
    (hlen : sig.length = (signPayload hmac secret p).length) :
    protectedHandler hmac secret ⟨some p, sig, ip'⟩ now =
      if sig = signPayload hmac secret p then
        (if p.exp < now then Except.ok ProtectedResult.expired
          else if p.ip ≠ ip' then Except.ok ProtectedResult.ipMismatch
          else Except.ok ProtectedResult.success)
      else Except.ok ProtectedResult.invalidSignature := by
  unfold protectedHandler verifySignature timingSafeEqual
  dsimp only
  rw [if_neg hne, if_pos hlen]
  by_cases he : sig = signPayload hmac secret p
  · have hb : (sig == signPayload hmac secret p) = true := by simp [he]
    rw [hb, if_pos he]
    rfl
  · have hb : (sig == signPayload hmac secret p) = false := by simp [he]
    rw [hb, if_neg he]
    rfl

/-- C7: a token issued at `now` passes `/protected` one millisecond later
for the same IP; the same token presented after `now + TOKEN_TTL` is
rejected as expired; and the same token with a different signature of the
same length is rejected as an invalid signature. -/
theorem token_roundtrip (hmac : String → String → String)
    (secret fp ip sig' : String) (v now : ℕ)
    (hne : (issueToken hmac secret fp ip now v).2 ≠ "") :
    protectedHandler hmac secret
        ⟨some (issueToken hmac secret fp ip now v).1,
          (issueToken hmac secret fp ip now v).2, ip⟩ (now + 1)
      = Except.ok ProtectedResult.success ∧
    (∀ t, now + TOKEN_TTL < t →
      protectedHandler hmac secret
          ⟨some (issueToken hmac secret fp ip now v).1,
            (issueToken hmac secret fp ip now v).2, ip⟩ t
        = Except.ok ProtectedResult.expired) ∧
    (sig' ≠ (issueToken hmac secret fp ip now v).2 →
      sig'.length = ((issueToken hmac secret fp ip now v).2).length →
      protectedHandler hmac secret
          ⟨some (issueToken hmac secret fp ip now v).1, sig', ip⟩ (now + 1)
        = Except.ok ProtectedResult.invalidSignature) := by
  refine ⟨?_, ?_, ?_⟩
  · rw [protectedHandler_eval hmac secret (issueToken hmac secret fp ip now v).1
      (issueToken hmac secret fp ip now v).2 ip (now + 1) hne rfl]
    simp only [issueToken]
    rw [if_pos trivial]
    rw [if_neg (show ¬(now + TOKEN_TTL < now + 1) by unfold TOKEN_TTL; omega)]
    rw [if_neg (show ¬(ip ≠ ip) by simp)]
  · intro t ht
    rw [protectedHandler_eval hmac secret (issueToken hmac secret fp ip now v).1
      (issueToken hmac secret fp ip now v).2 ip t hne rfl]
    simp only [issueToken]
    rw [if_pos trivial]
    rw [if_pos (show now + TOKEN_TTL < t from ht)]
  · intro hs hlen
    have hs' : sig' ≠ "" := ne_empty_of_length_eq hlen hne
    rw [protectedHandler_eval hmac secret (issueToken hmac secret fp ip now v).1
      sig' ip (now + 1) hs' hlen]
    simp only [issueToken] at hs ⊢
    rw [if_neg hs]

/-- Witness for C7 with a concrete two-character digest function. -/
theorem token_roundtrip_witness :
    protectedHandler (fun _ _ => "dd") "k"
        ⟨some (issueToken (fun _ _ => "dd") "k" "f" "i" 0 1).1,
          (issueToken (fun _ _ => "dd") "k" "f" "i" 0 1).2, "i"⟩ 1
      = Except.ok ProtectedResult.success ∧
    protectedHandler (fun _ _ => "dd") "k"
        ⟨some (issueToken (fun _ _ => "dd") "k" "f" "i" 0 1).1,
          (issueToken (fun _ _ => "dd") "k" "f" "i" 0 1).2, "i"⟩ 60001
      = Except.ok ProtectedResult.expired ∧
    protectedHandler (fun _ _ => "dd") "k"
        ⟨some (issueToken (fun _ _ => "dd") "k" "f" "i" 0 1).1, "ee", "i"⟩ 1
      = Except.ok ProtectedResult.invalidSignature := by
  have h := token_roundtrip (fun _ _ => "dd") "k" "f" "i" "ee" 1 0 (by decide)
  exact ⟨h.1, h.2.1 60001 (by decide), h.2.2 (by decide) (by decide)⟩

/-- C8: a token signed under the pre-rotation secret is rejected by
`/protected` with an invalid-signature response, not an expired response,
as soon as the process secret has rotated, even while the token is still
within `TOKEN_TTL`. -/
theorem rotation_invalidates_token (hmac : String → String → String)
    (secret1 secret2 fp ip : String) (v now t : ℕ)
    (hdiff : signPayload hmac secret2 (issueToken hmac secret1 fp ip now v).1
      ≠ (issueToken hmac secret1 fp ip now v).2)
    (hlen : ((issueToken hmac secret1 fp ip now v).2).length
      = (signPayload hmac secret2 (issueToken hmac secret1 fp ip now v).1).length)
    (hold : (issueToken hmac secret1 fp ip now v).2 ≠ "")
    (hexp : t ≤ now + TOKEN_TTL) :
    protectedHandler hmac secret2
        ⟨some (issueToken hmac secret1 fp ip now v).1,
          (issueToken hmac secret1 fp ip now v).2, ip⟩ t
      = Except.ok ProtectedResult.invalidSignature ∧
    protectedHandler hmac secret2
        ⟨some (issueToken hmac secret1 fp ip now v).1,
          (issueToken hmac secret1 fp ip now v).2, ip⟩ t
      ≠ Except.ok ProtectedResult.expired := by
  have hmain : protectedHandler hmac secret2
      ⟨some (issueToken hmac secret1 fp ip now v).1,
        (issueToken hmac secret1 fp ip now v).2, ip⟩ t
      = Except.ok ProtectedResult.invalidSignature := by
    rw [protectedHandler_eval hmac secret2 (issueToken hmac secret1 fp ip now v).1
      (issueToken hmac secret1 fp ip now v).2 ip t hold hlen]
    rw [if_neg (Ne.symm hdiff)]
  exact ⟨hmain, by simp [hmain]⟩

/-- Witness for C8: the digest function returns the secret itself, so the
rotation from secret `"aa"` to `"bb"` changes the expected digest. -/
theorem rotation_invalidates_token_witness :
    protectedHandler (fun s _ => s) "bb"
        ⟨some (issueToken (fun s _ => s) "aa" "f" "i" 0 1).1,
          (issueToken (fun s _ => s) "aa" "f" "i" 0 1).2, "i"⟩ 5
      = Except.ok ProtectedResult.invalidSignature ∧
    protectedHandler (fun s _ => s) "bb"
        ⟨some (issueToken (fun s _ => s) "aa" "f" "i" 0 1).1,
          (issueToken (fun s _ => s) "aa" "f" "i" 0 1).2, "i"⟩ 5
      ≠ Except.ok ProtectedResult.expired :=
  rotation_invalidates_token (fun s _ => s) "aa" "bb" "f" "i" 1 0 5
    (by decide) (by decide) (by decide) (by decide)

/-- C10: when the supplied signature's length differs from the expected
HMAC hex digest's length (64 bytes for a real SHA-256 hex digest),
`crypto.timingSafeEqual` throws instead of the handler answering 403, so
the `/protected` handler ends in the thrown-exception state. -/
theorem protected_throws_on_length_mismatch (hmac : String → String → String)
    (secret reqIp sig : String) (p : Payload) (now : ℕ)
    (hs : sig ≠ "")
    (hlen : sig.length ≠ (signPayload hmac secret p).length) :
    protectedHandler hmac secret ⟨some p, sig, reqIp⟩ now = Except.error () := by
  simp only [protectedHandler, verifySignature, timingSafeEqual]
  rw [if_neg hs, if_neg hlen]

/-- Witness for C10: a 64-character digest against a 3-character
signature. -/
theorem protected_throws_on_length_mismatch_witness :
    protectedHandler
        (fun _ _ => "0000000000000000000000000000000000000000000000000000000000000000")
        "k" ⟨some ⟨"f", "i", 0, 1⟩, "abc", "i"⟩ 0 = Except.error () :=
  protected_throws_on_length_mismatch
    (fun _ _ => "0000000000000000000000000000000000000000000000000000000000000000")
    "k" "i" "abc" ⟨"f", "i", 0, 1⟩ 0 (by decide) (by decide)

end ABP

namespace ABP

/-- C2: in the variant that records challenges in the TTL store
(src/unnamed/part_002), a `/verify` request whose claimed challenge is not
present in the store (never issued, expired, or already consumed), or
whose recorded binding IP differs from the requester's IP, is rejected
with the invalid-challenge error. -/
theorem enterprise_invalid_challenge (sha : String → String)
    (hmac : String → String → String) (secret : String)
    (req : Enterprise.Req) (now : ℕ) (st : Enterprise.St)
    (h : List.lookup req.challenge st.challenges = none ∨
      ∃ sIp, List.lookup req.challenge st.challenges = some sIp ∧ sIp ≠ req.ip) :
    (Enterprise.verify sha hmac secret req now st).1
      = Enterprise.Result.invalidChallenge := by
  unfold Enterprise.verify
  rcases h with h | ⟨sIp, hl, hne⟩
  · rw [h]
  · rw [hl]
    dsimp only
    rw [if_pos (Or.inr hne)]

/-- Witness for C2: the challenge is bound to IP `"ipA"`, the requester
comes from `"ipB"`. -/
theorem enterprise_invalid_challenge_witness :
    (Enterprise.verify (fun _ => "h") (fun _ _ => "s") "k"
        ⟨"c", "n", "h", "ipB", ⟨"", true, true⟩⟩ 0 ⟨[("c", "ipA")], [], []⟩).1
      = Enterprise.Result.invalidChallenge :=
  enterprise_invalid_challenge (fun _ => "h") (fun _ _ => "s") "k"
    ⟨"c", "n", "h", "ipB", ⟨"", true, true⟩⟩ 0 ⟨[("c", "ipA")], [], []⟩
    (Or.inr ⟨"ipA", by decide, by decide⟩)

/-- C4 (divergence evidence): at `/verify` time the difficulty is
re-derived from the raw stored score without first applying decay.  For a
trust state with `score = 1` last seen 600000 ms ago, the decayed score
would give difficulty 3 and the submitted hash meets 3 leading zeros, yet
the handler demands `difficultyFor 1 = 4` zeros and rejects the request
with a difficulty failure. -/
theorem verify_difficulty_read_skips_decay :
    (verifyHandler (fun _ => "000a") (fun _ _ => "s") "sec" 1
        ⟨"fp", "n", some "1", "000a", "", "ip"⟩ 600000
        ⟨[], [("fp", ⟨1, 0, []⟩)]⟩).1 = VerifyResult.difficultyFail ∧
    difficultyFor (⟨1, 0, []⟩ : TrustState).score = 4 ∧
    difficultyFor (decayTrust 600000 ⟨1, 0, []⟩).score = 3 ∧
    startsWithZeros "000a" (difficultyFor (decayTrust 600000 ⟨1, 0, []⟩).score) = true := by
  refine ⟨?_, ?_, ?_, ?_⟩
  · norm_num +decide [verifyHandler, cleanNonces, getTrustState, decayTrust,
      difficultyFor, startsWithZeros, BASE_DIFFICULTY, List.lookup]
  · norm_num [difficultyFor, BASE_DIFFICULTY]
  · norm_num [difficultyFor, BASE_DIFFICULTY, decayTrust]
  · norm_num +decide [startsWithZeros, difficultyFor, BASE_DIFFICULTY, decayTrust]

/-- C1: the deny branch of the `/verify` risk decision is dead code — a
computed risk above the deny threshold 5 also exceeds the shadow-throttle
threshold 3, and the shadow-throttle branch returns first, so the handler
can never answer with the 403 high-risk error; concretely, a request whose
risk computes to 6.2 > 5 receives HTTP 200 `shadow_throttled`. -/
theorem verify_high_risk_unreachable :
    (∀ (sha : String → String) (hmac : String → String → String)
        (secret : String) (version : ℕ) (req : VerifyReq) (now : ℕ)
        (st : ServerState),
      (verifyHandler sha hmac secret version req now st).1 ≠ VerifyResult.highRisk) ∧
    (verifyHandler (fun _ => "000000") (fun _ _ => "s") "sec" 1
        ⟨"fp", "n", some "1", "000000", "HeadlessCurl", "ip"⟩ 1000
        ⟨[], [("fp", ⟨5, 1000, []⟩)]⟩).1 = VerifyResult.shadowThrottled ∧
    (computeRisk "HeadlessCurl" "fp" 1000 [("fp", ⟨5, 1000, []⟩)]).1 = 6.2 ∧
    verifyStatus VerifyResult.shadowThrottled = 200 ∧
    verifyStatus VerifyResult.highRisk = 403 := by
  refine ⟨?_, ?_, ?_, rfl, rfl⟩
  · intro sha hmac secret version req now st
    simp only [verifyHandler]
    split
    · simp
    · split
      · simp
      · split
        · simp
        · split
          · simp
          · split
            · simp
            · split
              · rename_i h3 h5
                exact absurd (lt_trans (by norm_num) h5) h3
              · simp
  · norm_num +decide [verifyHandler, cleanNonces, getTrustState, decayTrust,
      computeRisk, difficultyFor, startsWithZeros, BASE_DIFFICULTY,
      containsCI, uaToolPattern, isInfixList, mapSet, List.lookup]
  · norm_num +decide [computeRisk, getTrustState, decayTrust, containsCI,
      uaToolPattern, isInfixList, mapSet, List.lookup]

end ABP

namespace ABP

/-- C9: a well-formed `/verify` request whose nonce is already in the
used-nonce store (and not yet expired from it) is answered with the replay
rejection, and the requester's trust memory — score, `lastSeen` and the
request-time window of every fingerprint — is left exactly as it was. -/
theorem verify_replay_frame (sha : String → String)
    (hmac : String → String → String) (secret : String) (version : ℕ)
    (req : VerifyReq) (now t : ℕ) (st : ServerState)
    (hwf : ¬(req.fingerprintHash = "" ∨ req.nonce = "" ∨
      req.counter = none ∨ req.hash = ""))
    (hl : List.lookup req.nonce st.usedNonces = some t)
    (ht : now - t ≤ NONCE_TTL) :
    (verifyHandler sha hmac secret version req now st).1 = VerifyResult.replay ∧
    (verifyHandler sha hmac secret version req now st).2.trustMemory
      = st.trustMemory := by
  have hsome := lookup_cleanNonces hl ht
  simp only [verifyHandler]
  rw [if_neg hwf]
  rw [if_pos (by rw [hsome]; rfl)]
  exact ⟨rfl, rfl⟩

/-- Witness for C9: nonce `"n"` is already recorded, the handler answers
replay and the (empty) trust memory is unchanged. -/
theorem verify_replay_frame_witness :
    (verifyHandler (fun _ => "h") (fun _ _ => "s") "k" 1
        ⟨"f", "n", some "c", "h", "u", "i"⟩ 0 ⟨[("n", 0)], []⟩).1
      = VerifyResult.replay ∧
    (verifyHandler (fun _ => "h") (fun _ _ => "s") "k" 1
        ⟨"f", "n", some "c", "h", "u", "i"⟩ 0 ⟨[("n", 0)], []⟩).2.trustMemory
      = ([] : TrustMem) :=
  verify_replay_frame (fun _ => "h") (fun _ _ => "s") "k" 1
    ⟨"f", "n", some "c", "h", "u", "i"⟩ 0 0 ⟨[("n", 0)], []⟩
    (by decide) (by decide) (by decide)

/-- C3: if a `/verify` call on a valid submission gets past the
proof-of-work checks — its outcome is shadow-throttling, the (dead)
high-risk rejection, or a token — then resubmitting the identical request
within `NONCE_TTL` always yields the replay rejection, whatever the
secret version or risk situation of the second call. -/
theorem verify_replay_on_resubmission (sha : String → String)
    (hmac : String → String → String) (secret secret' : String)
    (version version' : ℕ) (req : VerifyReq) (now now' : ℕ)
    (st st1 : ServerState) (r1 : VerifyResult)
    (hrun : verifyHandler sha hmac secret version req now st = (r1, st1))
    (hok : r1 = VerifyResult.shadowThrottled ∨ r1 = VerifyResult.highRisk ∨
      ∃ p s, r1 = VerifyResult.token p s)
    (httl : now' - now ≤ NONCE_TTL) :
    (verifyHandler sha hmac secret' version' req now' st1).1
      = VerifyResult.replay := by
  have hbad : ∀ r : VerifyResult,
      r = VerifyResult.malformed ∨ r = VerifyResult.replay ∨
        r = VerifyResult.invalidPow ∨ r = VerifyResult.difficultyFail →
      r = r1 → False := by
    intro r hr hr1
    subst hr1
    rcases hok with h | h | ⟨p, s, h⟩ <;> subst h <;>
      rcases hr with h | h | h | h <;> simp at h
  simp only [verifyHandler] at hrun
  by_cases h1 : req.fingerprintHash = "" ∨ req.nonce = "" ∨
      req.counter = none ∨ req.hash = ""
  · rw [if_pos h1] at hrun
    exact absurd (congrArg Prod.fst hrun) (fun h => hbad _ (Or.inl rfl) h)
  · rw [if_neg h1] at hrun
    split at hrun
    · exact absurd (congrArg Prod.fst hrun)
        (fun h => hbad _ (Or.inr (Or.inl rfl)) h)
    · split at hrun
      · exact absurd (congrArg Prod.fst hrun)
          (fun h => hbad _ (Or.inr (Or.inr (Or.inl rfl))) h)
      · split at hrun
        · exact absurd (congrArg Prod.fst hrun)
            (fun h => hbad _ (Or.inr (Or.inr (Or.inr rfl))) h)
        · have hu : st1.usedNonces
              = mapSet req.nonce now (cleanNonces now st.usedNonces) := by
            split at hrun
            · injection hrun with hr hs
              rw [← hs]
            · split at hrun
              · injection hrun with hr hs
                rw [← hs]
              · injection hrun with hr hs
                rw [← hs]
          have hsome : List.lookup req.nonce (cleanNonces now' st1.usedNonces)
              = some now := by
            rw [hu]
            exact lookup_cleanNonces (by simp [mapSet, List.lookup]) httl
          simp only [verifyHandler]
          rw [if_neg h1]
          rw [if_pos (by rw [hsome]; rfl)]

/-- Witness for C3: a fresh valid solve is answered with a token; the
identical resubmission one millisecond later, even under a rotated secret
and bumped version, is answered with replay. -/
theorem verify_replay_on_resubmission_witness :
    (verifyHandler (fun _ => "000") (fun _ _ => "s2") "k2" 2
        ⟨"f", "n", some "1", "000", "", "i"⟩ 1
        ⟨[("n", 0)], [("f", ⟨0, 0, [0]⟩)]⟩).1 = VerifyResult.replay := by
  have hrun : verifyHandler (fun _ => "000") (fun _ _ => "s") "k" 1
      ⟨"f", "n", some "1", "000", "", "i"⟩ 0 ⟨[], []⟩
      = (VerifyResult.token ⟨"f", "i", TOKEN_TTL, 1⟩ "s",
          ⟨[("n", 0)], [("f", ⟨0, 0, [0]⟩)]⟩) := by
    norm_num +decide [verifyHandler, cleanNonces, getTrustState, decayTrust,
      computeRisk, difficultyFor, startsWithZeros, BASE_DIFFICULTY,
      containsCI, uaToolPattern, isInfixList, mapSet, List.lookup,
      issueToken, signPayload, TOKEN_TTL]
  exact verify_replay_on_resubmission (fun _ => "000") (fun _ _ => "s") "k" "k2"
    1 2 ⟨"f", "n", some "1", "000", "", "i"⟩ 0 1 ⟨[], []⟩
    ⟨[("n", 0)], [("f", ⟨0, 0, [0]⟩)]⟩ (VerifyResult.token ⟨"f", "i", TOKEN_TTL, 1⟩ "s")
    hrun (Or.inr (Or.inr ⟨_, _, rfl⟩)) (by decide)

end ABP
